import Mathlib

set_option maxRecDepth 4000

/-!
Shallow embedding of the `xchenum/quantum` control-plane core:

* `quantum/plugins/openvswitch/ovs_db_v2.py` — the VLAN-id allocation pool
  (`update_vlan_id_pool`, `reserve_vlan_id`, `reserve_specific_vlan_id`,
  `release_vlan_id`).  The persisted table is modelled as a list of rows in
  iteration order; SQLAlchemy's `.one()` / `.first()` / `.filter_by` become
  list lookups, and a raise inside a transaction block leaves the table
  unchanged (rollback).
* `quantum/agent/linux/ip_lib.py` — command construction and output parsing
  (`SubProcessBase`, `IPWrapper.ensure_namespace`, `IPWrapper.get_namespaces`,
  `IpLinkCommand.attributes`, `IpAddrCommand.list`, `device_exists`).  The
  external world (`utils.execute`) is an oracle from the exact argv to an
  outcome, and each operation also reports how many external processes it
  spawned.
-/

namespace Quantum

/-! ## VLAN pool: `quantum/plugins/openvswitch/ovs_db_v2.py` -/

/-- One row of the persisted VLAN table (`ovs_models_v2.VlanID`):
`vlan_id INTEGER PRIMARY KEY, vlan_used BOOLEAN`.  Modelled from the spec:
`ovs_models_v2` is not under `src/`; per §6 the schema has
`vlan_used BOOLEAN NOT NULL DEFAULT FALSE`, so the bare constructor
`VlanID(vlan)` yields an unused row. -/
structure VlanID where
  vlan_id : Int
  vlan_used : Bool
deriving DecidableEq, Repr

/-- The VLAN table, in session iteration order.  The primary key makes
`vlan_id` unique; theorems that need uniqueness take it as a hypothesis. -/
abbrev VlanTable := List VlanID

/-- The typed errors raised by the pool code (`quantum.common.exceptions`):
`InvalidInput`, `VlanIdInUse`, `NoNetworkAvailable`. -/
inductive QExc where
  | invalidInput
  | vlanIdInUse
  | noNetworkAvailable
deriving DecidableEq, Repr

/-- `session.query(VlanID).filter_by(vlan_id=id).one()`: with `vlan_id` the
primary key at most one row matches, so `.one()` is the first match
(`none` models the `NoResultFound` branch). -/
def findRecord (t : VlanTable) (id : Int) : Option VlanID :=
  t.find? (fun r => r.vlan_id == id)

/-- `record.vlan_used = b` on the row found for `id` (with unique ids the
map touches exactly that row). -/
def setUsed (t : VlanTable) (id : Int) (b : Bool) : VlanTable :=
  t.map (fun r => if r.vlan_id == id then { r with vlan_used := b } else r)

/-- `set(xrange(vmin, vmax + 1))` as the list `[vmin, ..., vmax]`. -/
def rangeList (vmin vmax : Int) : List Int :=
  (List.range (vmax + 1 - vmin).toNat).map (fun (k : Nat) => vmin + (k : Int))

/-- The first pass of `update_vlan_id_pool`: walk all rows; a row whose id is
still in `vlans` is kept and its id removed from `vlans` (`vlans.remove`);
otherwise (`KeyError`) the row is kept only if `vlan_used`.  Returns the kept
rows and the ids of `vlans` never seen. -/
def poolPass : VlanTable → List Int → VlanTable × List Int
  | [], vlans => ([], vlans)
  | r :: rs, vlans =>
    if r.vlan_id ∈ vlans then
      let p := poolPass rs (vlans.erase r.vlan_id)
      (r :: p.1, p.2)
    else if r.vlan_used then
      let p := poolPass rs vlans
      (r :: p.1, p.2)
    else
      poolPass rs vlans

/-- `update_vlan_id_pool()` with the configured range passed explicitly:
drop unused rows outside `[vmin, vmax]`, then `session.add` a fresh unused
row for every id of the range that had no row. -/
def update_vlan_id_pool (vmin vmax : Int) (t : VlanTable) : VlanTable :=
  let p := poolPass t (rangeList vmin vmax)
  p.1 ++ p.2.map (fun v => { vlan_id := v, vlan_used := false })

/-- `reserve_vlan_id()`: `.filter_by(vlan_used=False).first()`; if no row,
raise `NoNetworkAvailable` (transaction rolls back, table unchanged);
otherwise mark the row used and return its id. -/
def reserve_vlan_id (t : VlanTable) : Except QExc Int × VlanTable :=
  match t.find? (fun r => !r.vlan_used) with
  | none => (Except.error QExc.noNetworkAvailable, t)
  | some r => (Except.ok r.vlan_id, setUsed t r.vlan_id true)

/-- `reserve_specific_vlan_id(vlan_id)`: range check, then either conflict,
mark-used, or add a fresh used row (`except NoResultFound` branch). -/
def reserve_specific_vlan_id (id : Int) (t : VlanTable) : Except QExc VlanTable :=
  if id < 1 ∨ 4094 < id then
    Except.error QExc.invalidInput
  else
    match findRecord t id with
    | some r =>
      if r.vlan_used then Except.error QExc.vlanIdInUse
      else Except.ok (setUsed t id true)
    | none => Except.ok (t ++ [{ vlan_id := id, vlan_used := true }])

/-- `release_vlan_id(vlan_id)` with the configured range passed explicitly:
missing row is logged and swallowed (`except NoResultFound`); an existing row
is marked unused and additionally deleted when outside `[vmin, vmax]`. -/
def release_vlan_id (vmin vmax id : Int) (t : VlanTable) : VlanTable :=
  match findRecord t id with
  | none => t
  | some _ =>
    let t1 := setUsed t id false
    if vmin ≤ id ∧ id ≤ vmax then t1
    else t1.filter (fun r => !(r.vlan_id == id))

/-! ## ip command wrappers: `quantum/agent/linux/ip_lib.py` -/

/-- Python exception classes observable in this module.  `runtimeError` is
the `RuntimeError` raised for a process-level failure; `sudoRequired` is
`quantum.common.exceptions.SudoRequired`; `nameError`, `typeError`,
`valueError`, `indexError` are the built-in Python errors. -/
inductive PyErr where
  | sudoRequired
  | runtimeError
  | nameError
  | typeError
  | valueError
  | indexError
deriving DecidableEq, Repr

/-- A parsed attribute value: `int(v) if v.isdigit() else v`. -/
inductive PyVal where
  | int (n : Nat)
  | str (s : String)
deriving DecidableEq, Repr

/-- Equality of `Except` results is decidable when both components are. -/
instance instDecEqExcept {e a : Type} [DecidableEq e] [DecidableEq a] :
    DecidableEq (Except e a) := fun x y =>
  match x, y with
  | Except.ok u, Except.ok v =>
    if h : u = v then isTrue (by rw [h]) else isFalse (fun hc => h (by cases hc; rfl))
  | Except.error u, Except.error v =>
    if h : u = v then isTrue (by rw [h]) else isFalse (fun hc => h (by cases hc; rfl))
  | Except.ok _, Except.error _ => isFalse (fun hc => by cases hc)
  | Except.error _, Except.ok _ => isFalse (fun hc => by cases hc)

/-- Python truthiness of an optional string: `None` and `''` are falsy. -/
def truthy : Option String → Bool
  | none => false
  | some s => !s.data.isEmpty

/-- Split a character list at every occurrence of `sep`, keeping empty
fields (the semantics of Python `str.split(sep)`). -/
def listSplitKeep (sep : Char) : List Char → List (List Char)
  | [] => [[]]
  | c :: cs =>
    if c == sep then [] :: listSplitKeep sep cs
    else
      match listSplitKeep sep cs with
      | [] => [[c]]
      | g :: gs => (c :: g) :: gs

/-- `output.split('\n')` (keeps empty fields). -/
def pyLines (s : String) : List String :=
  (listSplitKeep '\n' s.data).map String.mk

/-- Whitespace tokenization: `acc` holds the current token reversed. -/
def wsSplit (acc : List Char) : List Char → List (List Char)
  | [] => if acc.isEmpty then [] else [acc.reverse]
  | c :: cs =>
    if c.isWhitespace then
      if acc.isEmpty then wsSplit [] cs else acc.reverse :: wsSplit [] cs
    else wsSplit (c :: acc) cs

/-- `line.split()` with no argument: split on whitespace runs, no empty
fields, no leading/trailing empties. -/
def pySplitWs (s : String) : List String :=
  (wsSplit [] s.data).map String.mk

/-- `line.strip()`: drop leading and trailing whitespace. -/
def pyStrip (s : String) : String :=
  String.mk (((s.data.dropWhile Char.isWhitespace).reverse.dropWhile
      Char.isWhitespace).reverse)

/-- `s.startswith(pre)`. -/
def pyStartsWith (s pre : String) : Bool :=
  pre.data.isPrefixOf s.data

/-- `int(v)` for a digits-only string. -/
def digitsToNat (cs : List Char) : Nat :=
  cs.foldl (fun acc c => acc * 10 + (c.toNat - 48)) 0

/-- `v.isdigit()` for ASCII output: nonempty and all digits. -/
def pyIsDigit (s : String) : Bool := !s.data.isEmpty && s.data.all Char.isDigit

/-- `int(v) if v.isdigit() else v`. -/
def toPyVal (v : String) : PyVal :=
  if pyIsDigit v then PyVal.int (digitsToNat v.data) else PyVal.str v

/-- The external world: `utils.execute` maps the exact argv to captured
stdout (`ok`) or a process failure (`error .runtimeError`). -/
abbrev ExecOracle := List String → Except PyErr String

/-- Modelled from the spec: `utils.execute(cmd, root_helper=...)`
(`quantum.agent.linux.utils`, not under `src/`).  Per §4.1 it prefixes the
configured privilege helper, spawns exactly one external process, returns
captured stdout or fails with a process error (the `RuntimeError` kind).
The second component counts spawned processes. -/
def utils_execute (oracle : ExecOracle) (root_helper : Option String)
    (cmd : List String) : Except PyErr String × Nat :=
  let argv := if truthy root_helper then root_helper.getD "" :: cmd else cmd
  (oracle argv, 1)

/-- The state of a `SubProcessBase` (also of an `IPWrapper`): the configured
privilege helper and the bound namespace name. -/
structure SubProcessBase where
  root_helper : Option String := none
  nsname : Option String := none
deriving DecidableEq, Repr

/-- `['-%s' % o for o in options]` at call sites that pass a one-char
string or a list (each element listed here explicitly). -/
def opt_list (options : List String) : List String :=
  options.map (fun o => "-" ++ o)

/-- The argv built by `SubProcessBase._execute`:
`['ip','netns','exec',ns,'ip']` when a (truthy) namespace is given, else
`['ip']`, then options, command, args. -/
def execute_argv (options : List String) (command : String) (args : List String)
    (nsname : Option String) : List String :=
  (if truthy nsname then ["ip", "netns", "exec", nsname.getD "", "ip"] else ["ip"])
    ++ opt_list options ++ [command] ++ args

/-- `SubProcessBase._execute(options, command, args, root_helper, namespace)`. -/
def SubProcessBase.execute (oracle : ExecOracle) (options : List String)
    (command : String) (args : List String)
    (root_helper nsname : Option String) : Except PyErr String × Nat :=
  utils_execute oracle root_helper (execute_argv options command args nsname)

/-- `SubProcessBase._as_root`: `SudoRequired` when no (truthy) helper is
configured — raised before any process is spawned. -/
def SubProcessBase.as_root (s : SubProcessBase) (oracle : ExecOracle)
    (options : List String) (command : String) (args : List String) :
    Except PyErr String × Nat :=
  if !truthy s.root_helper then (Except.error PyErr.sudoRequired, 0)
  else SubProcessBase.execute oracle options command args s.root_helper s.nsname

/-- `SubProcessBase._run`: a (truthy) namespace unconditionally takes the
`_as_root` path; otherwise a plain un-elevated `_execute`. -/
def SubProcessBase.run (s : SubProcessBase) (oracle : ExecOracle)
    (options : List String) (command : String) (args : List String) :
    Except PyErr String × Nat :=
  if truthy s.nsname then s.as_root oracle options command args
  else SubProcessBase.execute oracle options command args none none

/-- An `IPDevice`: a device name plus the `SubProcessBase` state. -/
structure IPDevice where
  name : String
  root_helper : Option String := none
  nsname : Option String := none
deriving DecidableEq, Repr

/-- The `SubProcessBase` state of a device. -/
def IPDevice.toSub (d : IPDevice) : SubProcessBase :=
  { root_helper := d.root_helper, nsname := d.nsname }

/-- `value.replace("\\", '')`: the pattern is the single backslash
character, so this removes every backslash. -/
def stripBackslashes (s : String) : String :=
  String.mk (s.data.filter (fun c => c ≠ '\\'))

/-- Split a character list at the first `'>'`; `none` when absent. -/
def breakAtGt : List Char → Option (List Char × List Char)
  | [] => none
  | c :: cs =>
    if c == '>' then some ([], cs)
    else
      match breakAtGt cs with
      | none => none
      | some p => some (c :: p.1, p.2)

/-- `value.split('>', 1)`: `none` when `'>'` does not occur, in which case
the two-name unpacking in `_parse_line` raises `ValueError`. -/
def splitOnceGt (s : String) : Option (String × String) :=
  match breakAtGt s.data with
  | none => none
  | some p => some (String.mk p.1, String.mk p.2)

/-- `zip(tokens[::2], tokens[1::2])` with the digit coercion on values;
a dangling odd key is dropped by `zip`. -/
def pairKV : List String → List (String × PyVal)
  | k :: v :: rest => (k, toPyVal v) :: pairKV rest
  | _ => []

/-- `dict(zip(keys, values)).get(key)`: later duplicate keys override
earlier ones, so the lookup takes the last binding. -/
def dictGet (kvs : List (String × PyVal)) (k : String) : Option PyVal :=
  ((kvs.filter (fun p => p.1 == k)).getLast?).map Prod.snd

/-- `IpLinkCommand._parse_line`: strip backslashes, split off everything
before the first `>` (discarded), tokenize the rest into key/value pairs. -/
def parse_line (value : String) : Except PyErr (List (String × PyVal)) :=
  match splitOnceGt (stripBackslashes value) with
  | none => Except.error PyErr.valueError
  | some p => Except.ok (pairKV (pySplitWs p.2))

/-- `IpLinkCommand.attributes`: `self._parse_line(self._run('show',
self.name, options='o'))` with `COMMAND = 'link'`. -/
def link_attributes (d : IPDevice) (oracle : ExecOracle) :
    Except PyErr (List (String × PyVal)) × Nat :=
  match d.toSub.run oracle ["o"] "link" ["show", d.name] with
  | (Except.error e, n) => (Except.error e, n)
  | (Except.ok out, n) => (parse_line out, n)

/-- `IpLinkCommand.address`: `self.attributes.get('link/ether')`. -/
def link_address (d : IPDevice) (oracle : ExecOracle) :
    Except PyErr (Option PyVal) × Nat :=
  match link_attributes d oracle with
  | (Except.error e, n) => (Except.error e, n)
  | (Except.ok kvs, n) => (Except.ok (dictGet kvs "link/ether"), n)

/-- `device_exists(device_name, root_helper, namespace)`: fetch
`link.address`; `except RuntimeError: return False`; on success `True`.
Non-process errors are not caught and propagate. -/
def device_exists (device_name : String) (root_helper nsname : Option String)
    (oracle : ExecOracle) : Except PyErr Bool :=
  match (link_address { name := device_name, root_helper := root_helper,
                        nsname := nsname } oracle).1 with
  | Except.error PyErr.runtimeError => Except.ok false
  | Except.error e => Except.error e
  | Except.ok _ => Except.ok true

/-! ### `IpAddrCommand.list` -/

/-- One parsed address line (`dict(cidr=..., scope=..., ip_version=...,
dynamic=...)`). -/
structure AddrBinding where
  cidr : String
  scope : String
  ip_version : Nat
  dynamic : Bool
deriving DecidableEq, Repr

/-- The argument-building phase of `IpAddrCommand.list`.  The `filters=[]`
default is one shared list object which `filters += [...]` extends in
place, so it is threaded here as explicit state: the input is the current
contents of the shared default and the second output component is its
contents after the call.  Returns the args passed to `self._run('show',
self.name, *filters)` and the new shared default. -/
def addr_list_call (name : String) (defaultFilters : List String)
    (scope toAddr : Option String) : List String × List String :=
  let f1 := if truthy scope then defaultFilters ++ ["scope", scope.getD ""]
            else defaultFilters
  let f2 := if truthy toAddr then f1 ++ ["to", toAddr.getD ""] else f1
  (["show", name] ++ f2, f2)

/-- The per-line parse of `IpAddrCommand.list`: strip the line, skip it
unless it starts with `inet`; token 1 is the CIDR; `inet6` lines read the
scope from token 3, all other lines from token 5 (0-indexed); `dynamic`
iff the last token is `"dynamic"`.  A missing token is Python's
`IndexError`. -/
def parseAddrLine (line : String) : Option (Except PyErr AddrBinding) :=
  if pyStartsWith (pyStrip line) "inet" then
    some (match (pySplitWs (pyStrip line))[0]? with
      | none => Except.error PyErr.indexError
      | some fam =>
        if fam == "inet6" then
          match (pySplitWs (pyStrip line))[3]?, (pySplitWs (pyStrip line))[1]?,
              (pySplitWs (pyStrip line)).getLast? with
          | some scope, some cidr, some lastTok =>
            Except.ok { cidr := cidr, scope := scope, ip_version := 6,
                        dynamic := lastTok == "dynamic" }
          | _, _, _ => Except.error PyErr.indexError
        else
          match (pySplitWs (pyStrip line))[5]?, (pySplitWs (pyStrip line))[1]?,
              (pySplitWs (pyStrip line)).getLast? with
          | some scope, some cidr, some lastTok =>
            Except.ok { cidr := cidr, scope := scope, ip_version := 4,
                        dynamic := lastTok == "dynamic" }
          | _, _, _ => Except.error PyErr.indexError)
  else none

/-- The parsing phase of `IpAddrCommand.list` over the whole command
output: fold `parseAddrLine` over the lines, propagating the first
exception. -/
def addr_list (output : String) : Except PyErr (List AddrBinding) :=
  (pyLines output).foldlM (fun acc line =>
    match parseAddrLine line with
    | none => Except.ok acc
    | some (Except.error e) => Except.error e
    | some (Except.ok b) => Except.ok (acc ++ [b])) []

/-- The whole `IpAddrCommand.list(scope, to)` call: build the argv
(mutating the shared default), run it through `_run`, parse the output. -/
def addr_list_run (d : IPDevice) (oracle : ExecOracle)
    (defaultFilters : List String) (scope toAddr : Option String) :
    (Except PyErr (List AddrBinding) × Nat) × List String :=
  let p := addr_list_call d.name defaultFilters scope toAddr
  match d.toSub.run oracle [] "addr" p.1 with
  | (Except.error e, n) => ((Except.error e, n), p.2)
  | (Except.ok out, n) => ((addr_list out, n), p.2)

/-! ### Namespaces -/

/-- `IpNetnsCommand.exists(name)`: `self._as_root('list', options='o')`
with `COMMAND = 'netns'`, then exact match of `name` against each trimmed
output line. -/
def netns_exists (w : SubProcessBase) (oracle : ExecOracle) (name : String) :
    Except PyErr Bool × Nat :=
  match w.as_root oracle ["o"] "netns" ["list"] with
  | (Except.error e, n) => (Except.error e, n)
  | (Except.ok output, n) =>
    (Except.ok ((pyLines output).any (fun line => name == pyStrip line)), n)

/-- `IpNetnsCommand.add(name)`: `self._as_root('add', name)`, then a new
`IPWrapper(root_helper, name)`. -/
def netns_add (w : SubProcessBase) (oracle : ExecOracle) (name : String) :
    Except PyErr SubProcessBase × Nat :=
  match w.as_root oracle [] "netns" ["add", name] with
  | (Except.error e, n) => (Except.error e, n)
  | (Except.ok _, n) => (Except.ok { root_helper := w.root_helper,
                                     nsname := some name }, n)

/-- `IpLinkCommand.set_up`: `self._as_root('set', self.name, 'up')`. -/
def link_set_up (d : IPDevice) (oracle : ExecOracle) : Except PyErr Unit × Nat :=
  match d.toSub.as_root oracle [] "link" ["set", d.name, "up"] with
  | (Except.error e, n) => (Except.error e, n)
  | (Except.ok _, n) => (Except.ok (), n)

/-- `IPWrapper.ensure_namespace(name)`.  When the namespace does not exist
it is created and its loopback device brought up; when it does exist the
source evaluates `IP(self.root_helper, name)`, but no name `IP` is defined
in the module or its imports, so Python raises `NameError` — embedded as
`PyErr.nameError`.  The count is the number of spawned processes. -/
def ensure_namespace (w : SubProcessBase) (oracle : ExecOracle) (name : String) :
    Except PyErr SubProcessBase × Nat :=
  match netns_exists w oracle name with
  | (Except.error e, n) => (Except.error e, n)
  | (Except.ok true, n) => (Except.error PyErr.nameError, n)
  | (Except.ok false, n) =>
    match netns_add w oracle name with
    | (Except.error e, m) => (Except.error e, n + m)
    | (Except.ok ip, m) =>
      match link_set_up { name := "lo", root_helper := ip.root_helper,
                          nsname := ip.nsname } oracle with
      | (Except.error e, k) => (Except.error e, n + m + k)
      | (Except.ok _, k) => (Except.ok ip, n + m + k)

/-! ### `IPWrapper.get_namespaces` -/

/-- A Python argument value at the `get_namespaces` call site: a string or
a tuple of strings. -/
inductive PyArg where
  | str (s : String)
  | tup (l : List String)
deriving DecidableEq, Repr

/-- Python positional binding for `_execute(cls, options, command, args,
root_helper=None, namespace=None)`: exactly three positionals bind the
three required parameters; any other count raises `TypeError` at the
call, before the body runs. -/
def bindExecutePositional : List PyArg → Option (PyArg × PyArg × PyArg)
  | [a, b, c] => some (a, b, c)
  | _ => none

/-- Iterating a Python value: a string yields its characters, a tuple its
elements (`['-%s' % o for o in options]`, `list(args)`). -/
def pyIterStrings : PyArg → List String
  | PyArg.str s => s.data.map (fun c => String.mk [c])
  | PyArg.tup l => l

/-- `IPWrapper.get_namespaces(root_helper)`.  The source calls
`cls._execute('netns', ('list',), root_helper=root_helper)` — two
positional arguments for the three required parameters of `_execute`, so
the binding fails and Python raises `TypeError`; the `some` branch (the
intended trim-each-line continuation) is unreachable at this call site. -/
def get_namespaces (root_helper : Option String) (oracle : ExecOracle) :
    Except PyErr (List String) :=
  match bindExecutePositional [PyArg.str "netns", PyArg.tup ["list"]] with
  | none => Except.error PyErr.typeError
  | some (options, command, args) =>
    match command with
    | PyArg.tup _ => Except.error PyErr.typeError
    | PyArg.str c =>
      match (utils_execute oracle root_helper
              (execute_argv (pyIterStrings options) c (pyIterStrings args) none)).1 with
      | Except.error e => Except.error e
      | Except.ok output => Except.ok ((pyLines output).map pyStrip)

/-! ## Theorems -/

/-- Membership in `rangeList` is exactly the interval `[vmin, vmax]`. -/
theorem mem_rangeList {vmin vmax v : Int} :
    v ∈ rangeList vmin vmax ↔ vmin ≤ v ∧ v ≤ vmax := by
  unfold rangeList
  rw [List.mem_map]
  constructor
  · rintro ⟨k, hk, hv⟩
    rw [List.mem_range] at hk
    omega
  · rintro ⟨h1, h2⟩
    refine ⟨(v - vmin).toNat, ?_, ?_⟩
    · rw [List.mem_range]
      omega
    · show vmin + ((v - vmin).toNat : Int) = v
      omega

/-- `rangeList` has no duplicates. -/
theorem rangeList_nodup (vmin vmax : Int) : (rangeList vmin vmax).Nodup := by
  unfold rangeList
  refine List.Nodup.map ?_ (List.nodup_range _)
  intro a b h
  have h2 : vmin + (a : Int) = vmin + (b : Int) := h
  omega

/-- Looking up `id` after `setUsed` yields the original row with the flag
replaced. -/
theorem findRecord_setUsed (t : VlanTable) (id : Int) (b : Bool) :
    findRecord (setUsed t id b) id
      = (findRecord t id).map (fun r => { r with vlan_used := b }) := by
  induction t with
  | nil => rfl
  | cons r rs ih =>
    by_cases h : r.vlan_id = id
    · simp [findRecord, setUsed, List.find?_cons, h]
    · have hb : (r.vlan_id == id) = false := by simp [h]
      simp only [setUsed, List.map_cons, findRecord, List.find?_cons, hb,
        if_neg (by simp [h] : ¬(r.vlan_id == id) = true)]
      simpa [findRecord, setUsed, hb] using ih

/-- **C1** (code bug).  `ensure(name)` is claimed idempotent: a second
consecutive call must not fail and must return an equivalent handle while
issuing no creation command.  On the embedded code, with the namespace
absent the call creates it (3 processes: list, add, set-lo-up) and returns
the handle; with the namespace already listed, the exists-branch evaluates
the undefined module name `IP` and raises `NameError` after the single
`netns list` process — the second consecutive call always fails. -/
theorem ensure_namespace_second_call_raises :
    ensure_namespace { root_helper := some "sudo" } (fun _ => Except.ok "") "ns1"
      = (Except.ok { root_helper := some "sudo", nsname := some "ns1" }, 3)
  ∧ ensure_namespace { root_helper := some "sudo" } (fun _ => Except.ok "ns1\n") "ns1"
      = (Except.error PyErr.nameError, 1) := by decide

/-- **C2** (code bug).  `get_namespaces` is claimed to return the trimmed
namespace names of the list output.  The embedded code instead raises
`TypeError` on every call — the source passes two positional arguments to
`_execute`, whose three parameters `options`, `command`, `args` are all
required — before any process is spawned or any line is parsed. -/
theorem get_namespaces_raises_type_error :
    get_namespaces (some "sudo") (fun _ => Except.ok "ns1\nns2\n")
      = Except.error PyErr.typeError
  ∧ get_namespaces none (fun _ => Except.ok "") = Except.error PyErr.typeError := by
  exact ⟨rfl, rfl⟩

/-- **C10** (confirmed).  Two `list(scope='global')` calls with identical
arguments and identical external output build different command argument
vectors: the `filters=[]` default is one shared mutable list, so the second
call re-appends the filters accumulated by the first. -/
theorem addr_list_shared_default_filters :
    (addr_list_call "tap0" [] (some "global") none).1
      = ["show", "tap0", "scope", "global"]
  ∧ (addr_list_call "tap0" [] (some "global") none).2 = ["scope", "global"]
  ∧ (addr_list_call "tap0" (addr_list_call "tap0" [] (some "global") none).2
        (some "global") none).1
      = ["show", "tap0", "scope", "global", "scope", "global"]
  ∧ (addr_list_call "tap0" [] (some "global") none).1
      ≠ (addr_list_call "tap0" (addr_list_call "tap0" [] (some "global") none).2
          (some "global") none).1 := by decide

/-- **C3** (counterexample).  The claim places the scope in the 6th
whitespace token of an IPv6 line; the code reads the 4th.  On the line
`inet6 fe80::1/64 scope link valid_lft forever`, the 6th token (0-indexed
5th) is `forever` while the code emits scope `link`.  The claim also limits
parsing to lines whose first token is `inet` or `inet6`; the code accepts
any line starting with the prefix `inet`, e.g. first token `inetX`. -/
theorem addr_list_scope_token_counterexample :
    addr_list "inet6 fe80::1/64 scope link valid_lft forever"
      = Except.ok [{ cidr := "fe80::1/64", scope := "link", ip_version := 6,
                     dynamic := false }]
  ∧ (pySplitWs (pyStrip "inet6 fe80::1/64 scope link valid_lft forever"))[5]?
      = some "forever"
  ∧ ("link" : String) ≠ "forever"
  ∧ addr_list "inetX 10.0.0.1/8 brd 10.255.255.255 scope global up"
      = Except.ok [{ cidr := "10.0.0.1/8", scope := "global", ip_version := 4,
                     dynamic := false }] := by decide

/-- **C8** (confirmed).  `device_exists` never propagates a process-level
failure: when the `link.address` fetch fails with the process error it
returns `false`, and when the fetch succeeds it returns `true`. -/
theorem device_exists_spec (dn : String) (rh ns : Option String)
    (oracle : ExecOracle) :
    ((link_address { name := dn, root_helper := rh, nsname := ns } oracle).1
        = Except.error PyErr.runtimeError →
      device_exists dn rh ns oracle = Except.ok false)
  ∧ (∀ v, (link_address { name := dn, root_helper := rh, nsname := ns } oracle).1
        = Except.ok v →
      device_exists dn rh ns oracle = Except.ok true) := by
  constructor
  · intro h
    simp [device_exists, h]
  · intro v h
    simp [device_exists, h]

/-- Witness for **C8**: a failing fetch yields `false`, a succeeding fetch
yields `true`, on concrete oracles. -/
theorem device_exists_spec_witness :
    device_exists "tap0" (some "sudo") none (fun _ => Except.error PyErr.runtimeError)
      = Except.ok false
  ∧ device_exists "tap0" (some "sudo") none
      (fun _ => Except.ok "1: tap0: <UP> mtu 1500 link/ether aa:bb")
      = Except.ok true := by
  refine ⟨(device_exists_spec "tap0" (some "sudo") none
      (fun _ => Except.error PyErr.runtimeError)).1 (by decide),
    (device_exists_spec "tap0" (some "sudo") none
      (fun _ => Except.ok "1: tap0: <UP> mtu 1500 link/ether aa:bb")).2
      (some (PyVal.str "aa:bb")) (by decide)⟩

/-- **C9** (confirmed).  On a handle whose namespace is set (truthy) and
whose `root_helper` is not configured (falsy), every command routed through
`_run` — including the reads `attributes()` and `addr.list()` — raises
`SudoRequired` with zero external processes spawned. -/
theorem namespace_forces_sudo (s : SubProcessBase) (oracle : ExecOracle)
    (options : List String) (command : String) (args : List String)
    (dn : String) (defaultFilters : List String) (scope toAddr : Option String)
    (hns : truthy s.nsname = true) (hrh : truthy s.root_helper = false) :
    s.run oracle options command args = (Except.error PyErr.sudoRequired, 0)
  ∧ link_attributes (IPDevice.mk dn s.root_helper s.nsname) oracle
      = (Except.error PyErr.sudoRequired, 0)
  ∧ (addr_list_run (IPDevice.mk dn s.root_helper s.nsname) oracle
        defaultFilters scope toAddr).1
      = (Except.error PyErr.sudoRequired, 0) := by
  have hrun : ∀ (op : List String) (c : String) (a : List String),
      SubProcessBase.run { root_helper := s.root_helper, nsname := s.nsname }
        oracle op c a = (Except.error PyErr.sudoRequired, 0) := by
    intro op c a
    simp [SubProcessBase.run, SubProcessBase.as_root, hns, hrh]
  refine ⟨?_, ?_, ?_⟩
  · have h := hrun options command args
    exact h
  · simp only [link_attributes, IPDevice.toSub]
    rw [hrun]
  · simp only [addr_list_run, IPDevice.toSub]
    rw [hrun]

/-- Witness for **C9**: concrete handle with a namespace and no helper. -/
theorem namespace_forces_sudo_witness :
    SubProcessBase.run { root_helper := none, nsname := some "qdhcp-1" }
      (fun _ => Except.ok "") ["o"] "link" ["show", "tap0"]
      = (Except.error PyErr.sudoRequired, 0)
  ∧ link_attributes (IPDevice.mk "tap0" none (some "qdhcp-1"))
      (fun _ => Except.ok "") = (Except.error PyErr.sudoRequired, 0) := by
  have h := namespace_forces_sudo { root_helper := none, nsname := some "qdhcp-1" }
    (fun _ => Except.ok "") ["o"] "link" ["show", "tap0"] "tap0" [] none none
    (by decide) (by decide)
  exact ⟨h.1, h.2.1⟩

/-- **C4** (confirmed).  `reserve_specific_vlan_id`: out-of-range ids fail
with `InvalidInput`; in range, an existing used row fails with the conflict
error, an existing unused row is marked used, a missing row is inserted
marked used (also outside the configured pool), and a second call for the
same in-range id always fails with the conflict error. -/
theorem reserve_specific_vlan_id_spec (id : Int) (t : VlanTable) :
    ((id < 1 ∨ 4094 < id) →
      reserve_specific_vlan_id id t = Except.error QExc.invalidInput)
  ∧ (1 ≤ id → id ≤ 4094 →
      (∀ r, findRecord t id = some r → r.vlan_used = true →
        reserve_specific_vlan_id id t = Except.error QExc.vlanIdInUse)
    ∧ (∀ r, findRecord t id = some r → r.vlan_used = false →
        reserve_specific_vlan_id id t = Except.ok (setUsed t id true)
        ∧ findRecord (setUsed t id true) id = some { r with vlan_used := true })
    ∧ (findRecord t id = none →
        reserve_specific_vlan_id id t
          = Except.ok (t ++ [{ vlan_id := id, vlan_used := true }]))
    ∧ (∀ t2, reserve_specific_vlan_id id t = Except.ok t2 →
        reserve_specific_vlan_id id t2 = Except.error QExc.vlanIdInUse)) := by
  constructor
  · intro h
    rw [reserve_specific_vlan_id, if_pos h]
  · intro h1 h2
    have ho : ¬(id < 1 ∨ 4094 < id) := by omega
    refine ⟨?_, ?_, ?_, ?_⟩
    · intro r hr hu
      simp [reserve_specific_vlan_id, ho, hr, hu]
    · intro r hr hu
      refine ⟨by simp [reserve_specific_vlan_id, ho, hr, hu], ?_⟩
      rw [findRecord_setUsed, hr]
      rfl
    · intro hn
      simp [reserve_specific_vlan_id, ho, hn]
    · intro t2 hok
      rw [reserve_specific_vlan_id, if_neg ho] at hok
      rcases hfind : findRecord t id with _ | r
      · rw [hfind] at hok
        simp only [Except.ok.injEq] at hok
        subst hok
        have hf2 : findRecord (t ++ [{ vlan_id := id, vlan_used := true }]) id
            = some { vlan_id := id, vlan_used := true } := by
          rw [findRecord] at hfind ⊢
          rw [List.find?_append, hfind]
          simp
        simp [reserve_specific_vlan_id, ho, hf2]
      · rw [hfind] at hok
        by_cases hu : r.vlan_used
        · simp [hu] at hok
        · simp only [hu, if_false, Bool.false_eq_true, Except.ok.injEq] at hok
          subst hok
          have hf2 := findRecord_setUsed t id true
          rw [hfind] at hf2
          simp [reserve_specific_vlan_id, ho, hf2]

/-- Witness for **C4**: `reserveSpecific(5000)` fails with `InvalidInput`;
`reserveSpecific(10)` twice in a row fails the second time with the
conflict error. -/
theorem reserve_specific_vlan_id_spec_witness :
    reserve_specific_vlan_id 5000 [] = Except.error QExc.invalidInput
  ∧ reserve_specific_vlan_id 10 []
      = Except.ok [{ vlan_id := 10, vlan_used := true }]
  ∧ reserve_specific_vlan_id 10 [{ vlan_id := 10, vlan_used := true }]
      = Except.error QExc.vlanIdInUse := by
  have h1 := (reserve_specific_vlan_id_spec 5000 []).1 (by omega)
  have h2 := ((reserve_specific_vlan_id_spec 10 []).2 (by omega) (by omega)).2.2.1 rfl
  have h3 := ((reserve_specific_vlan_id_spec 10 []).2 (by omega) (by omega)).2.2.2
    [{ vlan_id := 10, vlan_used := true }] h2
  exact ⟨h1, h2, h3⟩

/-- **C6** (confirmed).  `release_vlan_id`: a missing row leaves the table
unchanged (the error is logged, not raised); an existing row is marked
unused and retained when the id is inside the configured range, and its
record is deleted when outside. -/
theorem release_vlan_id_spec (vmin vmax id : Int) (t : VlanTable) :
    (findRecord t id = none → release_vlan_id vmin vmax id t = t)
  ∧ (∀ r, findRecord t id = some r → vmin ≤ id → id ≤ vmax →
      release_vlan_id vmin vmax id t = setUsed t id false
      ∧ findRecord (release_vlan_id vmin vmax id t) id
          = some { r with vlan_used := false })
  ∧ (∀ r, findRecord t id = some r → (id < vmin ∨ vmax < id) →
      findRecord (release_vlan_id vmin vmax id t) id = none) := by
  refine ⟨?_, ?_, ?_⟩
  · intro h
    simp [release_vlan_id, h]
  · intro r hr hmin hmax
    have heq : release_vlan_id vmin vmax id t = setUsed t id false := by
      simp [release_vlan_id, hr, if_pos (And.intro hmin hmax)]
    refine ⟨heq, ?_⟩
    rw [heq, findRecord_setUsed, hr]
    rfl
  · intro r hr hout
    have hcond : ¬(vmin ≤ id ∧ id ≤ vmax) := by omega
    simp only [release_vlan_id, hr, if_neg hcond]
    rw [findRecord, List.find?_eq_none]
    intro x hx
    rw [List.mem_filter] at hx
    simpa using hx.2

/-- Witness for **C6**: releasing 11 inside range [10,12] retains it
unused; releasing 20 outside the range deletes the record; releasing a
missing id leaves the table unchanged. -/
theorem release_vlan_id_spec_witness :
    release_vlan_id 10 12 11 [⟨11, true⟩] = [⟨11, false⟩]
  ∧ findRecord (release_vlan_id 10 12 20 [⟨20, true⟩, ⟨11, false⟩]) 20 = none
  ∧ release_vlan_id 10 12 99 [⟨11, false⟩] = [⟨11, false⟩] := by
  have h1 := (release_vlan_id_spec 10 12 11 [⟨11, true⟩]).2.1 ⟨11, true⟩
    (by decide) (by omega) (by omega)
  have h2 := (release_vlan_id_spec 10 12 20 [⟨20, true⟩, ⟨11, false⟩]).2.2
    ⟨20, true⟩ (by decide) (by omega)
  have h3 := (release_vlan_id_spec 10 12 99 [⟨11, false⟩]).1 (by decide)
  exact ⟨h1.1.trans (by decide), h2, h3⟩

/-- **C7** (confirmed).  `reserve_vlan_id` selects some unused row, marks
it used and returns its id; with no unused row it fails with
`NoNetworkAvailable` leaving the table unchanged; after reserving every id
of the pool {10,11,12} the next call fails. -/
theorem reserve_vlan_id_spec (t : VlanTable) :
    ((∃ r ∈ t, r.vlan_used = false) →
      ∃ r, r ∈ t ∧ r.vlan_used = false
        ∧ reserve_vlan_id t = (Except.ok r.vlan_id, setUsed t r.vlan_id true)
        ∧ { r with vlan_used := true } ∈ (reserve_vlan_id t).2)
  ∧ ((∀ r ∈ t, r.vlan_used = true) →
      reserve_vlan_id t = (Except.error QExc.noNetworkAvailable, t))
  ∧ update_vlan_id_pool 10 12 [] = [⟨10, false⟩, ⟨11, false⟩, ⟨12, false⟩]
  ∧ reserve_vlan_id [⟨10, false⟩, ⟨11, false⟩, ⟨12, false⟩]
      = (Except.ok 10, [⟨10, true⟩, ⟨11, false⟩, ⟨12, false⟩])
  ∧ reserve_vlan_id [⟨10, true⟩, ⟨11, false⟩, ⟨12, false⟩]
      = (Except.ok 11, [⟨10, true⟩, ⟨11, true⟩, ⟨12, false⟩])
  ∧ reserve_vlan_id [⟨10, true⟩, ⟨11, true⟩, ⟨12, false⟩]
      = (Except.ok 12, [⟨10, true⟩, ⟨11, true⟩, ⟨12, true⟩])
  ∧ reserve_vlan_id [⟨10, true⟩, ⟨11, true⟩, ⟨12, true⟩]
      = (Except.error QExc.noNetworkAvailable,
         [⟨10, true⟩, ⟨11, true⟩, ⟨12, true⟩]) := by
  refine ⟨?_, ?_, by decide, by decide, by decide, by decide, by decide⟩
  · rintro ⟨r0, hmem0, hu0⟩
    rcases hfind : t.find? (fun r => !r.vlan_used) with _ | r1
    · rw [List.find?_eq_none] at hfind
      exact absurd (by simp [hu0] : (!r0.vlan_used) = true) (hfind r0 hmem0)
    · have hmem1 := List.mem_of_find?_eq_some hfind
      have hu1 : r1.vlan_used = false := by
        have h := List.find?_some hfind
        simpa using h
      refine ⟨r1, hmem1, hu1, by simp [reserve_vlan_id, hfind], ?_⟩
      simp only [reserve_vlan_id, hfind]
      exact List.mem_map.mpr ⟨r1, hmem1, by simp⟩
  · intro hall
    have hfind : t.find? (fun r => !r.vlan_used) = none := by
      rw [List.find?_eq_none]
      intro x hx
      simp [hall x hx]
    simp [reserve_vlan_id, hfind]

/-- Witness for **C7**: a pool with one unused row yields it; an exhausted
pool fails with the table unchanged. -/
theorem reserve_vlan_id_spec_witness :
    reserve_vlan_id [⟨7, true⟩]
      = (Except.error QExc.noNetworkAvailable, [⟨7, true⟩])
  ∧ (∃ r, r ∈ ([⟨5, false⟩] : VlanTable) ∧ r.vlan_used = false
      ∧ reserve_vlan_id [⟨5, false⟩]
          = (Except.ok r.vlan_id, setUsed [⟨5, false⟩] r.vlan_id true)
      ∧ { r with vlan_used := true } ∈ (reserve_vlan_id [⟨5, false⟩]).2) := by
  exact ⟨(reserve_vlan_id_spec [⟨7, true⟩]).2.1 (by decide),
    (reserve_vlan_id_spec [⟨5, false⟩]).1 ⟨⟨5, false⟩, by decide, rfl⟩⟩

/-- **C3** (amended).  `list()` parses exactly the lines whose stripped
form starts with the prefix `inet` (whatever the full first token is); on
each parsed line the CIDR is the 2nd whitespace token, the scope is the
4th token when the first token is `inet6` and the 6th token otherwise,
`dynamic` is true iff the last token is the literal `dynamic`; the sample
`inet` line yields exactly the claimed binding. -/
theorem addr_list_parse_spec (line : String) (b : AddrBinding)
    (hb : parseAddrLine line = some (Except.ok b)) :
    pyStartsWith (pyStrip line) "inet" = true
  ∧ (pySplitWs (pyStrip line))[1]? = some b.cidr
  ∧ ((pySplitWs (pyStrip line))[0]? = some "inet6" →
      b.ip_version = 6 ∧ (pySplitWs (pyStrip line))[3]? = some b.scope)
  ∧ ((pySplitWs (pyStrip line))[0]? ≠ some "inet6" →
      b.ip_version = 4 ∧ (pySplitWs (pyStrip line))[5]? = some b.scope)
  ∧ (b.dynamic = true ↔ (pySplitWs (pyStrip line)).getLast? = some "dynamic")
  ∧ (∀ l2, pyStartsWith (pyStrip l2) "inet" = false → parseAddrLine l2 = none)
  ∧ addr_list "inet 192.168.1.2/24 brd 192.168.1.255 scope global dynamic"
      = Except.ok [{ cidr := "192.168.1.2/24", scope := "global",
                     ip_version := 4, dynamic := true }] := by
  rw [parseAddrLine] at hb
  by_cases hs : pyStartsWith (pyStrip line) "inet" = true
  case neg =>
    rw [if_neg hs] at hb
    exact Option.noConfusion hb
  case pos =>
    rw [if_pos hs, Option.some.injEq] at hb
    rcases h0 : (pySplitWs (pyStrip line))[0]? with _ | fam
    · rw [h0] at hb
      exact Except.noConfusion hb
    · rw [h0] at hb
      dsimp only at hb
      by_cases hf : (fam == "inet6") = true
      · rw [if_pos hf] at hb
        rcases h3 : (pySplitWs (pyStrip line))[3]? with _ | scp
        · rw [h3] at hb
          exact Except.noConfusion hb
        · rcases h1 : (pySplitWs (pyStrip line))[1]? with _ | cidr
          · rw [h3, h1] at hb
            exact Except.noConfusion hb
          · rcases hl : (pySplitWs (pyStrip line)).getLast? with _ | lastTok
            · rw [h3, h1, hl] at hb
              exact Except.noConfusion hb
            · rw [h3, h1, hl, Except.ok.injEq] at hb
              subst hb
              have hfam : fam = "inet6" := by simpa using hf
              subst hfam
              refine ⟨hs, rfl, ?_, ?_, ?_, ?_, by decide⟩
              · intro _
                exact ⟨rfl, rfl⟩
              · intro hne
                exact absurd rfl hne
              · constructor
                · intro hd
                  have hld : lastTok = "dynamic" := by simpa using hd
                  exact congrArg some hld
                · intro hg
                  rw [Option.some.injEq] at hg
                  simp [hg]
              · intro l2 h
                simp [parseAddrLine, h]
      · rw [if_neg hf] at hb
        rcases h5 : (pySplitWs (pyStrip line))[5]? with _ | scp
        · rw [h5] at hb
          exact Except.noConfusion hb
        · rcases h1 : (pySplitWs (pyStrip line))[1]? with _ | cidr
          · rw [h5, h1] at hb
            exact Except.noConfusion hb
          · rcases hl : (pySplitWs (pyStrip line)).getLast? with _ | lastTok
            · rw [h5, h1, hl] at hb
              exact Except.noConfusion hb
            · rw [h5, h1, hl, Except.ok.injEq] at hb
              subst hb
              refine ⟨hs, rfl, ?_, ?_, ?_, ?_, by decide⟩
              · intro h6
                rw [Option.some.injEq] at h6
                exact absurd (by simp [h6]) hf
              · intro _
                exact ⟨rfl, rfl⟩
              · constructor
                · intro hd
                  have hld : lastTok = "dynamic" := by simpa using hd
                  exact congrArg some hld
                · intro hg
                  rw [Option.some.injEq] at hg
                  simp [hg]
              · intro l2 h
                simp [parseAddrLine, h]

/-- Witness for **C3**: on the sample `inet` line the produced binding's
CIDR is the 2nd token and its scope the 6th token. -/
theorem addr_list_parse_spec_witness :
    (pySplitWs (pyStrip "inet 192.168.1.2/24 brd 192.168.1.255 scope global dynamic"))[1]?
      = some "192.168.1.2/24"
  ∧ (pySplitWs (pyStrip "inet 192.168.1.2/24 brd 192.168.1.255 scope global dynamic"))[5]?
      = some "global" := by
  have h := addr_list_parse_spec
    "inet 192.168.1.2/24 brd 192.168.1.255 scope global dynamic"
    { cidr := "192.168.1.2/24", scope := "global", ip_version := 4,
      dynamic := true } (by decide)
  exact ⟨h.2.1, (h.2.2.2.1 (by decide)).2⟩

/-- With duplicate-free row ids, the kept rows of `poolPass` are exactly
the rows whose id is in `vlans` or which are used. -/
theorem poolPass_fst (rs : VlanTable) (vlans : List Int)
    (hnd : (rs.map VlanID.vlan_id).Nodup) :
    (poolPass rs vlans).1
      = rs.filter (fun r => decide (r.vlan_id ∈ vlans) || r.vlan_used) := by
  induction rs generalizing vlans with
  | nil => rfl
  | cons r rs ih =>
    rw [List.map_cons, List.nodup_cons] at hnd
    obtain ⟨hnotin, hnd2⟩ := hnd
    have hne : ∀ x ∈ rs, x.vlan_id ≠ r.vlan_id := by
      intro x hx hcontra
      exact hnotin (List.mem_map.mpr ⟨x, hx, hcontra⟩)
    by_cases hmem : r.vlan_id ∈ vlans
    · simp only [poolPass, if_pos hmem]
      rw [List.filter_cons, if_pos (by simp [hmem])]
      rw [ih (vlans.erase r.vlan_id) hnd2]
      have hcong : rs.filter
            (fun x => decide (x.vlan_id ∈ vlans.erase r.vlan_id) || x.vlan_used)
          = rs.filter (fun x => decide (x.vlan_id ∈ vlans) || x.vlan_used) := by
        apply List.filter_congr
        intro x hx
        have hd : decide (x.vlan_id ∈ vlans.erase r.vlan_id)
            = decide (x.vlan_id ∈ vlans) :=
          decide_eq_decide.mpr (List.mem_erase_of_ne (hne x hx))
        rw [hd]
      rw [hcong]
    · by_cases hused : r.vlan_used = true
      · simp only [poolPass, if_neg hmem, if_pos hused]
        rw [List.filter_cons, if_pos (by simp [hused])]
        rw [ih vlans hnd2]
      · have hu2 : r.vlan_used = false := by simpa using hused
        simp only [poolPass, if_neg hmem, if_neg hused]
        rw [List.filter_cons, if_neg (by simp [hmem, hu2])]
        exact ih vlans hnd2

/-- With a duplicate-free `vlans`, the leftover ids of `poolPass` are the
members of `vlans` matched by no row. -/
theorem poolPass_snd (rs : VlanTable) (vlans : List Int) (hnd : vlans.Nodup)
    (v : Int) :
    v ∈ (poolPass rs vlans).2 ↔ v ∈ vlans ∧ ∀ x ∈ rs, x.vlan_id ≠ v := by
  induction rs generalizing vlans with
  | nil => simp [poolPass]
  | cons r rs ih =>
    by_cases hmem : r.vlan_id ∈ vlans
    · simp only [poolPass, if_pos hmem]
      rw [ih (vlans.erase r.vlan_id) (hnd.erase _)]
      rw [List.Nodup.mem_erase_iff hnd]
      constructor
      · rintro ⟨⟨hvne, hv⟩, htail⟩
        refine ⟨hv, ?_⟩
        intro x hx
        rcases List.mem_cons.mp hx with hxr | hxs
        · subst hxr
          exact fun hc => hvne hc.symm
        · exact htail x hxs
      · rintro ⟨hv, hall⟩
        refine ⟨⟨?_, hv⟩, ?_⟩
        · exact fun hc => hall r (List.mem_cons_self r rs) hc.symm
        · intro x hx
          exact hall x (List.mem_cons_of_mem r hx)
    · have hsnd : (poolPass (r :: rs) vlans).2 = (poolPass rs vlans).2 := by
        by_cases hused : r.vlan_used = true
        · simp only [poolPass, if_neg hmem, if_pos hused]
        · simp only [poolPass, if_neg hmem, if_neg hused]
      rw [hsnd, ih vlans hnd]
      constructor
      · rintro ⟨hv, htail⟩
        refine ⟨hv, ?_⟩
        intro x hx
        rcases List.mem_cons.mp hx with hxr | hxs
        · subst hxr
          intro hc
          rw [← hc] at hv
          exact hmem hv
        · exact htail x hxs
      · rintro ⟨hv, hall⟩
        exact ⟨hv, fun x hx => hall x (List.mem_cons_of_mem r hx)⟩

/-- **C5** (confirmed).  `update_vlan_id_pool` (with duplicate-free row
ids, the primary-key invariant): unused rows outside `[vmin, vmax]` are
deleted, used rows outside the range are left untouched, every id of the
range with no row gains a fresh unused row; and `syncRange(10,12)`
followed by `syncRange(11,12)` drops the unused 10 and keeps 11 and 12. -/
theorem update_vlan_id_pool_spec (vmin vmax : Int) (t : VlanTable)
    (hnd : (t.map VlanID.vlan_id).Nodup) :
    (∀ r ∈ t, (r.vlan_id < vmin ∨ vmax < r.vlan_id) → r.vlan_used = false →
      ∀ x ∈ update_vlan_id_pool vmin vmax t, x.vlan_id ≠ r.vlan_id)
  ∧ (∀ r ∈ t, (r.vlan_id < vmin ∨ vmax < r.vlan_id) → r.vlan_used = true →
      r ∈ update_vlan_id_pool vmin vmax t)
  ∧ (∀ v : Int, vmin ≤ v → v ≤ vmax → (∀ r ∈ t, r.vlan_id ≠ v) →
      ({ vlan_id := v, vlan_used := false } : VlanID)
        ∈ update_vlan_id_pool vmin vmax t)
  ∧ update_vlan_id_pool 11 12 (update_vlan_id_pool 10 12 [])
      = [⟨11, false⟩, ⟨12, false⟩] := by
  refine ⟨?_, ?_, ?_, by decide⟩
  · intro r hr hout hu x hx
    simp only [update_vlan_id_pool] at hx
    rcases List.mem_append.mp hx with hk | hm
    · rw [poolPass_fst t _ hnd, List.mem_filter] at hk
      intro hc
      have hxr : x = r := List.inj_on_of_nodup_map hnd hk.1 hr hc
      subst hxr
      have hor : x.vlan_id ∈ rangeList vmin vmax ∨ x.vlan_used = true := by
        simpa using hk.2
      rcases hor with h | h
      · rw [mem_rangeList] at h
        omega
      · rw [h] at hu
        cases hu
    · rw [List.mem_map] at hm
      obtain ⟨v, hv, hxv⟩ := hm
      rw [poolPass_snd t _ (rangeList_nodup vmin vmax) v] at hv
      obtain ⟨hv1, hv2⟩ := mem_rangeList.mp hv.1
      subst hxv
      intro hc
      have hvc : v = r.vlan_id := hc
      omega
  · intro r hr hout hu
    simp only [update_vlan_id_pool]
    apply List.mem_append_left
    rw [poolPass_fst t _ hnd, List.mem_filter]
    exact ⟨hr, by simp [hu]⟩
  · intro v h1 h2 hall
    simp only [update_vlan_id_pool]
    apply List.mem_append_right
    rw [List.mem_map]
    refine ⟨v, ?_, rfl⟩
    rw [poolPass_snd t _ (rangeList_nodup vmin vmax) v]
    exact ⟨mem_rangeList.mpr ⟨h1, h2⟩, hall⟩

/-- Witness for **C5**: shrinking the range to [11,12] over a table that
holds only the unused row 10 inserts 11 and deletes 10. -/
theorem update_vlan_id_pool_spec_witness :
    ({ vlan_id := 11, vlan_used := false } : VlanID)
      ∈ update_vlan_id_pool 11 12 [⟨10, false⟩]
  ∧ ({ vlan_id := 10, vlan_used := false } : VlanID)
      ∉ update_vlan_id_pool 11 12 [⟨10, false⟩] := by
  have h := update_vlan_id_pool_spec 11 12 [⟨10, false⟩] (by decide)
  refine ⟨h.2.2.1 11 (by omega) (by omega) (by decide), ?_⟩
  intro hmem
  exact h.1 ⟨10, false⟩ (by decide) (by decide) rfl ⟨10, false⟩ hmem rfl

end Quantum
